import Mathlib

/-!
Verification of the reconciliation-and-durable-delivery engine of mbcp.

The development shallowly embeds the data model and the operations of the
engine: the Store aggregate (src/store.rs), the reconciler and retention
sweeper (src/sources/source.rs), and the processor loop
(src/operations/destination.rs).  Platform clients (the Client trait of
src/protocols.rs) are embedded as records of pure fallible functions.
Timestamps are opaque strings.  Parts of the repository that are only
declared or called from the embedded files (store/user.rs,
store/operations.rs, sources/merge_operations.rs,
sources/operation_factory.rs, operations/create_post.rs and the sibling
action handlers) are modelled from the specification; each such definition
carries a doc comment saying so.
-/

/-- AccountKey (src/app.rs, declaration only): platform origin plus account
identifier; equality is structural. -/
structure AccountKey where
  origin : String
  identifier : String
deriving DecidableEq, Repr

/-- AccountPair (store/operations.rs): one synchronization edge. -/
structure AccountPair where
  src_origin : String
  src_account_identifier : String
  dst_origin : String
  dst_account_identifier : String
deriving DecidableEq, Repr

def AccountPair.to_src_key (p : AccountPair) : AccountKey :=
  { origin := p.src_origin, identifier := p.src_account_identifier }

def AccountPair.to_dst_key (p : AccountPair) : AccountKey :=
  { origin := p.dst_origin, identifier := p.dst_account_identifier }

/-- Facet (store/operations.rs): rich-text marker over a byte range. -/
structure Facet where
  byte_start : Nat
  byte_end : Nat
  uri : String
deriving DecidableEq, Repr

/-- Medium (store/operations.rs): one attached media item. -/
structure Medium where
  url : String
  alt : String
deriving DecidableEq, Repr

/-- External (store/operations.rs): a link preview card. -/
structure External where
  uri : String
  title : String
  description : String
deriving DecidableEq, Repr

/-- CreatePostOperationStatus (store/operations.rs): payload of a
CreatePost action. -/
structure CreatePostOperationStatus where
  src_identifier : String
  content : String
  facets : List Facet
  reply_src_identifier : Option String
  media : List Medium
  external : Option External
  created_at : String
deriving DecidableEq, Repr

/-- CreateRepostOperationStatus (store/operations.rs): payload of a
CreateRepost action. -/
structure CreateRepostOperationStatus where
  src_identifier : String
  target_identifier : String
  created_at : String
deriving DecidableEq, Repr

/-- UpdatePostOperationStatus (store/operations.rs): payload of an
UpdatePost action (recognized, never produced). -/
structure UpdatePostOperationStatus where
  src_identifier : String
  content : String
  facets : List Facet
deriving DecidableEq, Repr

/-- DeletePostOperationStatus (store/operations.rs). -/
structure DeletePostOperationStatus where
  src_identifier : String
deriving DecidableEq, Repr

/-- DeleteRepostOperationStatus (store/operations.rs). -/
structure DeleteRepostOperationStatus where
  src_identifier : String
deriving DecidableEq, Repr

structure CreatePostOperation where
  account_pair : AccountPair
  status : CreatePostOperationStatus
deriving DecidableEq, Repr

structure CreateRepostOperation where
  account_pair : AccountPair
  status : CreateRepostOperationStatus
deriving DecidableEq, Repr

structure UpdatePostOperation where
  account_pair : AccountPair
  status : UpdatePostOperationStatus
deriving DecidableEq, Repr

structure DeletePostOperation where
  account_pair : AccountPair
  status : DeletePostOperationStatus
deriving DecidableEq, Repr

structure DeleteRepostOperation where
  account_pair : AccountPair
  status : DeleteRepostOperationStatus
deriving DecidableEq, Repr

/-- Operation (store/operations.rs): the closed set of queued actions, each
stamped with an AccountPair. -/
inductive Operation where
  | CreatePost : CreatePostOperation → Operation
  | CreateRepost : CreateRepostOperation → Operation
  | UpdatePost : UpdatePostOperation → Operation
  | DeletePost : DeletePostOperation → Operation
  | DeleteRepost : DeleteRepostOperation → Operation
deriving DecidableEq, Repr

/-- Operation::account_pair (store/operations.rs). -/
def Operation.account_pair : Operation → AccountPair
  | .CreatePost o => o.account_pair
  | .CreateRepost o => o.account_pair
  | .UpdatePost o => o.account_pair
  | .DeletePost o => o.account_pair
  | .DeleteRepost o => o.account_pair

/-- SourceStatus::Post (store/user.rs): recorded snapshot of one post of
the source feed. -/
structure SourcePost where
  identifier : String
  uri : String
  content : String
  facets : List Facet
  reply_src_identifier : Option String
  media : List Medium
  external : Option External
  created_at : String
deriving DecidableEq, Repr

/-- SourceStatus::Repost (store/user.rs): recorded snapshot of one repost,
carrying its own identifier and the target identifier. -/
structure SourceRepost where
  identifier : String
  target_identifier : String
  created_at : String
deriving DecidableEq, Repr

/-- SourceStatus (store/user.rs). -/
inductive SourceStatus where
  | post : SourcePost → SourceStatus
  | repost : SourceRepost → SourceStatus
deriving DecidableEq, Repr

def SourceStatus.identifier : SourceStatus → String
  | .post p => p.identifier
  | .repost r => r.identifier

/-- DestinationStatus::Post (store/user.rs): source item src_identifier was
mirrored to destination item identifier. -/
structure DestinationPost where
  identifier : String
  src_identifier : String
deriving DecidableEq, Repr

/-- DestinationStatus::Repost (store/user.rs). -/
structure DestinationRepost where
  identifier : String
  src_identifier : String
deriving DecidableEq, Repr

/-- DestinationStatus (store/user.rs). -/
inductive DestinationStatus where
  | post : DestinationPost → DestinationStatus
  | repost : DestinationRepost → DestinationStatus
deriving DecidableEq, Repr

def DestinationStatus.src_identifier : DestinationStatus → String
  | .post p => p.src_identifier
  | .repost r => r.src_identifier

def DestinationStatus.identifier : DestinationStatus → String
  | .post p => p.identifier
  | .repost r => r.identifier

/-- Destination (store/user.rs): one per configured destination of a user,
holding the mirrored-status records newest first. -/
structure Destination where
  origin : String
  identifier : String
  statuses : List DestinationStatus
deriving DecidableEq, Repr

/-- Source (store/user.rs): the source account record. -/
structure Source where
  origin : String
  identifier : String
  session : Option String
  statuses : List SourceStatus
deriving DecidableEq, Repr

/-- User (store/user.rs): one per configured source account. -/
structure User where
  src : Source
  dsts : List Destination
deriving DecidableEq, Repr

def User.src_key (u : User) : AccountKey :=
  { origin := u.src.origin, identifier := u.src.identifier }

/-- Store (src/store.rs): the sole persisted aggregate. -/
structure Store where
  users : List User
  operations : List Operation
deriving DecidableEq, Repr

/-- The user matched by get_or_create_user_mut (src/store.rs, lines 22-24):
src origin and identifier both equal the requested account key. -/
def user_matches (u : User) (account_key : AccountKey) : Bool :=
  u.src.origin == account_key.origin && u.src.identifier == account_key.identifier

/-- The fresh User pushed by get_or_create_user_mut (src/store.rs,
lines 28-36). -/
def fresh_user (account_key : AccountKey) : User :=
  { src := { origin := account_key.origin, identifier := account_key.identifier,
             session := none, statuses := [] },
    dsts := [] }

/-- Store::get_or_create_user_mut (src/store.rs): return the first user
whose source matches the key, pushing a fresh one first when none matches.
The Rust function returns a mutable reference into users; the embedding
returns the updated store together with the referenced user. -/
def Store.get_or_create_user (store : Store) (account_key : AccountKey) : Store × User :=
  match store.users.find? (fun user => user_matches user account_key) with
  | some user => (store, user)
  | none =>
    ({ store with users := store.users ++ [fresh_user account_key] }, fresh_user account_key)

/-- The destination matched within a user (user.rs is not under src;
matching on origin and identifier follows the at-most-one-Destination-per-
key invariant of the spec). -/
def dst_matches (d : Destination) (account_key : AccountKey) : Bool :=
  d.origin == account_key.origin && d.identifier == account_key.identifier

/-- Modelled from the spec: the fresh Destination created on demand the
first time its key is referenced (User::get_or_create_dst_mut,
store/user.rs, not under src). -/
def fresh_dst (account_key : AccountKey) : Destination :=
  { origin := account_key.origin, identifier := account_key.identifier, statuses := [] }

/-- Apply f to the first element satisfying p; when none does, push mk and
apply f to it.  This renders the get-or-create-then-mutate pattern of the
Rust mutable references. -/
def updateFirst (p : α → Bool) (f : α → α) (mk : α) : List α → List α
  | [] => [f mk]
  | x :: xs => if p x then f x :: xs else x :: updateFirst p f mk xs

/-- Mutation through Store::get_or_create_user_mut: the matching (or
fresh) user is updated in place. -/
def Store.modify_user (store : Store) (account_key : AccountKey) (f : User → User) : Store :=
  { store with users := updateFirst (fun u => user_matches u account_key) f (fresh_user account_key) store.users }

/-- Modelled from the spec: User::get_or_create_dst_mut (store/user.rs, not
under src) finds the destination for the key, creating it on demand; the
embedding updates it in place. -/
def User.modify_dst (u : User) (account_key : AccountKey) (f : Destination → Destination) : User :=
  { u with dsts := updateFirst (fun d => dst_matches d account_key) f (fresh_dst account_key) u.dsts }

/-- Store::get_or_create_dst_mut (src/store.rs, lines 40-46) followed by a
mutation of the returned destination. -/
def Store.modify_dst (store : Store) (account_pair : AccountPair) (f : Destination → Destination) : Store :=
  store.modify_user account_pair.to_src_key (fun u => u.modify_dst account_pair.to_dst_key f)

/-- All DestinationStatus entries across all users and all destinations, in
store order: the search space of to_dst_identifier. -/
def Store.all_dst_statuses (store : Store) : List DestinationStatus :=
  (store.users.flatMap (fun user => user.dsts)).flatMap (fun dst => dst.statuses)

/-- Lookup of the destination record addressed by an AccountPair. -/
def Store.find_dst (store : Store) (account_pair : AccountPair) : Option Destination :=
  (store.users.find? (fun u => user_matches u account_pair.to_src_key)).bind
    (fun u => u.dsts.find? (fun d => dst_matches d account_pair.to_dst_key))

/-- The status list of the destination addressed by an AccountPair (empty
when the destination does not exist yet). -/
def Store.dst_statuses (store : Store) (account_pair : AccountPair) : List DestinationStatus :=
  ((store.find_dst account_pair).map (fun d => d.statuses)).getD []

/-- Total number of DestinationStatus records in the store. -/
def Store.total_dst_statuses (store : Store) : Nat :=
  store.all_dst_statuses.length

/-- LiveExternal (src/sources/source.rs, lines 24-28). -/
inductive LiveExternal where
  | some : External → LiveExternal
  | none : LiveExternal
  | unknown : LiveExternal
deriving DecidableEq, Repr

/-- Modelled from the spec: sources/operation_factory.rs (not under src)
resolves an unknown link preview by fetching the page; the pure embedding
maps unknown to no preview. -/
def LiveExternal.to_option : LiveExternal → Option External
  | .some e => Option.some e
  | .none => Option.none
  | .unknown => Option.none

/-- LivePost (src/sources/source.rs, lines 30-40). -/
structure LivePost where
  identifier : String
  uri : String
  content : String
  facets : List Facet
  reply_src_identifier : Option String
  media : List Medium
  external : LiveExternal
  created_at : String
deriving DecidableEq, Repr

/-- LiveStatus (src/sources/source.rs, lines 42-46). -/
inductive LiveStatus where
  | post : LivePost → LiveStatus
  | repost : CreateRepostOperationStatus → LiveStatus
deriving DecidableEq, Repr

def LiveStatus.identifier : LiveStatus → String
  | .post p => p.identifier
  | .repost r => r.src_identifier

/-- sources::source::Operation (src/sources/source.rs, lines 60-67): a
source-level action, not yet stamped with an AccountPair. -/
inductive SourceOperation where
  | CreatePost : CreatePostOperationStatus → SourceOperation
  | CreateRepost : CreateRepostOperationStatus → SourceOperation
  | UpdatePost : UpdatePostOperationStatus → SourceOperation
  | DeletePost : DeletePostOperationStatus → SourceOperation
  | DeleteRepost : DeleteRepostOperationStatus → SourceOperation
deriving DecidableEq, Repr

/-- Operation::to_store (src/sources/source.rs, lines 69-101): stamp a
source-level action with an AccountPair. -/
def SourceOperation.to_store (op : SourceOperation) (account_pair : AccountPair) : Operation :=
  match op with
  | .CreatePost status => .CreatePost { account_pair := account_pair, status := status }
  | .CreateRepost status => .CreateRepost { account_pair := account_pair, status := status }
  | .UpdatePost status => .UpdatePost { account_pair := account_pair, status := status }
  | .DeletePost status => .DeletePost { account_pair := account_pair, status := status }
  | .DeleteRepost status => .DeleteRepost { account_pair := account_pair, status := status }

/-- Observation: the payload carried by a queued action, with the stamp
stripped. -/
def Operation.payload : Operation → SourceOperation
  | .CreatePost o => .CreatePost o.status
  | .CreateRepost o => .CreateRepost o.status
  | .UpdatePost o => .UpdatePost o.status
  | .DeletePost o => .DeletePost o.status
  | .DeleteRepost o => .DeleteRepost o.status

/-- Observation: the source identifier an action is about. -/
def SourceOperation.src_identifier : SourceOperation → String
  | .CreatePost s => s.src_identifier
  | .CreateRepost s => s.src_identifier
  | .UpdatePost s => s.src_identifier
  | .DeletePost s => s.src_identifier
  | .DeleteRepost s => s.src_identifier

/-- Modelled from the spec: the Create action built for a new live item
(sources/operation_factory.rs, not under src); a post yields CreatePost
carrying content, annotations, optional reply parent, media, optional link
preview and the original creation timestamp, a repost yields CreateRepost. -/
def live_to_create : LiveStatus → SourceOperation
  | .post p => .CreatePost
      { src_identifier := p.identifier, content := p.content, facets := p.facets,
        reply_src_identifier := p.reply_src_identifier, media := p.media,
        external := p.external.to_option, created_at := p.created_at }
  | .repost r => .CreateRepost r

/-- Modelled from the spec: the Delete action built for a recorded item
absent from the live fetch (sources/operation_factory.rs, not under src). -/
def stored_to_delete : SourceStatus → SourceOperation
  | .post p => .DeletePost { src_identifier := p.identifier }
  | .repost r => .DeleteRepost { src_identifier := r.identifier }

/-- Modelled from the spec: create_operations
(sources/operation_factory.rs, not under src) diffs the live fetch against
the recorded snapshot: any live item whose identifier is absent from the
previous list yields exactly one Create, any previously recorded identifier
absent from the live fetch yields exactly one Delete, in feed scan order. -/
def create_operations (live_statuses : List LiveStatus) (stored_statuses : List SourceStatus) :
    List SourceOperation :=
  (live_statuses.filter
      (fun l => !(stored_statuses.any (fun s => s.identifier == l.identifier)))).map live_to_create
  ++ (stored_statuses.filter
      (fun s => !(live_statuses.any (fun l => l.identifier == s.identifier)))).map stored_to_delete

/-- Modelled from the spec: the Into<SourceStatus> conversion of a live
status (store/user.rs, not under src); the replacement snapshot is the live
fetch, verbatim. -/
def LiveStatus.into : LiveStatus → SourceStatus
  | .post p => .post
      { identifier := p.identifier, uri := p.uri, content := p.content, facets := p.facets,
        reply_src_identifier := p.reply_src_identifier, media := p.media,
        external := p.external.to_option, created_at := p.created_at }
  | .repost r => .repost
      { identifier := r.src_identifier, target_identifier := r.target_identifier,
        created_at := r.created_at }

/-- fetch_statuses (src/sources/source.rs, lines 103-113), with the network
fetch abstracted into the live_statuses argument: returns the replacement
snapshot list and the source-level actions. -/
def fetch_statuses (live_statuses : List LiveStatus) (src_statuses : List SourceStatus) :
    List SourceStatus × List SourceOperation :=
  (live_statuses.map LiveStatus.into, create_operations live_statuses src_statuses)

/-- Modelled from the spec: merge_operations (sources/merge_operations.rs,
not under src): for every configured destination, clone each action, stamp
it with the corresponding AccountPair, and append it to the queue of the
Store. -/
def mk_account_pair (src_key dst_key : AccountKey) : AccountPair :=
  { src_origin := src_key.origin,
    src_account_identifier := src_key.identifier,
    dst_origin := dst_key.origin,
    dst_account_identifier := dst_key.identifier }

def merge_operations (store : Store) (dst_account_keys : List AccountKey)
    (src_account_key : AccountKey) (operations : List SourceOperation) : Store :=
  { store with
    operations := store.operations ++
      dst_account_keys.flatMap (fun dst_key =>
        operations.map (fun op => op.to_store (mk_account_pair src_account_key dst_key))) }

/-- necessary_post_src_identifiers (src/sources/source.rs, lines 180-189):
all post identifiers referenced by any source status, taking the target
identifier for reposts. -/
def necessary_post_src_identifiers (users : List User) : List String :=
  (users.flatMap (fun user => user.src.statuses)).map
    (fun src_status =>
      match src_status with
      | .post p => p.identifier
      | .repost r => r.target_identifier)

/-- necessary_repost_src_identifiers (src/sources/source.rs, lines
191-200): the identifiers of all still-tracked reposts. -/
def necessary_repost_src_identifiers (users : List User) : List String :=
  (users.flatMap (fun user => user.src.statuses)).filterMap
    (fun src_status =>
      match src_status with
      | .post _ => none
      | .repost r => some r.identifier)

/-- retain_all_dst_statuses (src/sources/source.rs, lines 202-221): the
retention sweeper keeps a destination post status only when its
src_identifier is still necessary for posts, and a destination repost
status only when its src_identifier is a still-tracked repost identifier. -/
def retain_all_dst_statuses (store : Store) : Store :=
  { store with
    users := store.users.map (fun user =>
      { user with
        dsts := user.dsts.map (fun dst =>
          { dst with
            statuses := dst.statuses.filter (fun status =>
              match status with
              | .post p =>
                (necessary_post_src_identifiers store.users).contains p.src_identifier
              | .repost r =>
                (necessary_repost_src_identifiers store.users).contains r.src_identifier) }) }) }

/-- The destination-side capabilities of the Client trait
(src/protocols.rs, lines 17-42), embedded as pure fallible functions:
post content facets reply_identifier images external created_at, repost
target_identifier created_at, delete_post identifier, delete_repost
identifier. -/
structure Client where
  post : String → List Facet → Option String → List Medium → Option External → String →
    Except String String
  repost : String → String → Except String String
  delete_post : String → Except String Unit
  delete_repost : String → Except String Unit

/-- Modelled from the spec: the reverse lookup used by the action handlers
(operations/create_post.rs and siblings, not under src): search all
DestinationStatus entries across all users and destinations for the first
one whose src_identifier equals the argument, returning its destination
identifier.  It mirrors to_dst_identifier of src/destination.rs (a prior
revision kept in the tree) lifted to the Post/Repost status enum. -/
def to_dst_identifier (src_identifier : String) (store : Store) : Option String :=
  ((store.all_dst_statuses).find? (fun dst => dst.src_identifier == src_identifier)).map
    (fun dst => dst.identifier)

/-- Modelled from the spec: create_post (operations/create_post.rs, not
under src): resolve an optional reply target by the reverse lookup, invoke
the create capability of the destination, and on success prepend a new
DestinationStatus to the target Destination. -/
def create_post (store : Store) (client : Client) (operation : CreatePostOperation) :
    Except String Store :=
  let s := operation.status
  let reply_identifier := s.reply_src_identifier.bind (fun reply => to_dst_identifier reply store)
  match client.post s.content s.facets reply_identifier s.media s.external s.created_at with
  | .error e => .error e
  | .ok dst_identifier =>
    .ok (store.modify_dst operation.account_pair (fun d =>
      { d with statuses :=
          DestinationStatus.post { identifier := dst_identifier, src_identifier := s.src_identifier }
            :: d.statuses }))

/-- Modelled from the spec: create_repost (operations/create_repost.rs, not
under src): invoke the repost capability against the target reference and
record the resulting identifier the same way as a created post. -/
def create_repost (store : Store) (client : Client) (operation : CreateRepostOperation) :
    Except String Store :=
  let s := operation.status
  match client.repost s.target_identifier s.created_at with
  | .error e => .error e
  | .ok dst_identifier =>
    .ok (store.modify_dst operation.account_pair (fun d =>
      { d with statuses :=
          DestinationStatus.repost { identifier := dst_identifier, src_identifier := s.src_identifier }
            :: d.statuses }))

/-- Remove the first status satisfying p; none when no status matches. -/
def removeFirstStatus (p : DestinationStatus → Bool) :
    List DestinationStatus → Option (List DestinationStatus)
  | [] => none
  | s :: rest =>
    if p s then some rest
    else (removeFirstStatus p rest).map (fun r => s :: r)

/-- Remove the first matching status from the first destination holding
one. -/
def removeFirstInDsts (p : DestinationStatus → Bool) :
    List Destination → Option (List Destination)
  | [] => none
  | d :: rest =>
    match removeFirstStatus p d.statuses with
    | some sts => some ({ d with statuses := sts } :: rest)
    | none => (removeFirstInDsts p rest).map (fun r => d :: r)

/-- Remove the first matching status from the first user holding one. -/
def removeFirstInUsers (p : DestinationStatus → Bool) :
    List User → Option (List User)
  | [] => none
  | u :: rest =>
    match removeFirstInDsts p u.dsts with
    | some ds => some ({ u with dsts := ds } :: rest)
    | none => (removeFirstInUsers p rest).map (fun r => u :: r)

/-- Remove the first DestinationStatus satisfying p anywhere in the store;
the store is unchanged when none matches. -/
def Store.remove_dst_status (store : Store) (p : DestinationStatus → Bool) : Store :=
  match removeFirstInUsers p store.users with
  | some users => { store with users := users }
  | none => store

/-- Modelled from the spec: delete_post (operations/delete_post.rs, not
under src): reverse-lookup the destination identifier for the
src_identifier of the action; when none exists the action is a no-op
success, otherwise invoke the delete capability and remove the matching
DestinationStatus. -/
def delete_post (store : Store) (client : Client) (operation : DeletePostOperation) :
    Except String Store :=
  match to_dst_identifier operation.status.src_identifier store with
  | none => .ok store
  | some dst_identifier =>
    match client.delete_post dst_identifier with
    | .error e => .error e
    | .ok _ =>
      .ok (store.remove_dst_status
        (fun st => st.src_identifier == operation.status.src_identifier))

/-- Modelled from the spec: delete_repost (operations/delete_repost.rs, not
under src), same shape as delete_post with the delete_repost capability. -/
def delete_repost (store : Store) (client : Client) (operation : DeleteRepostOperation) :
    Except String Store :=
  match to_dst_identifier operation.status.src_identifier store with
  | none => .ok store
  | some dst_identifier =>
    match client.delete_repost dst_identifier with
    | .error e => .error e
    | .ok _ =>
      .ok (store.remove_dst_status
        (fun st => st.src_identifier == operation.status.src_identifier))

/-- The dispatch of the processor (src/operations/destination.rs, lines
45-54): UpdatePost is logged and consumed without effect, the other kinds
go to their handlers. -/
def apply_operation (store : Store) (client : Client) (operation : Operation) :
    Except String Store :=
  match operation with
  | .CreatePost op => create_post store client op
  | .CreateRepost op => create_repost store client op
  | .UpdatePost _ => .ok store
  | .DeletePost op => delete_post store client op
  | .DeleteRepost op => delete_repost store client op

/-- Vec::pop: remove and return the last element. -/
def listPop : List α → Option (α × List α)
  | [] => none
  | a :: rest =>
    match listPop rest with
    | none => some (a, [])
    | some (b, rest2) => some (b, a :: rest2)

/-- The environment of the processor run (src/operations/destination.rs,
lines 21-26 and 39-43): the configured destination accounts, reduced to
their account keys, and client creation, which may fail. -/
structure Env where
  dsts : List AccountKey
  create_client : AccountKey → Except String Client

/-- One full processor run (src/operations/destination.rs, lines 21-60),
with fuel standing for the loop: check cancellation, pop the next action
off the tail of the queue, find the destination account, create its
client, dispatch, and bail on any failure.  Returns the final store, the
actions applied successfully in order, and the outcome.  The wrapper below
passes the queue length as fuel, which the loop never exhausts because
handlers leave the queue untouched. -/
def post_go (env : Env) (cancelled : Nat → Bool) :
    Nat → Nat → Store → Store × List Operation × Except String Unit
  | 0, _, store => (store, [], .ok ())
  | fuel + 1, i, store =>
    if cancelled i then (store, [], .ok ())
    else
      match listPop store.operations with
      | none => (store, [], .ok ())
      | some (operation, remaining) =>
        let store1 : Store := { store with operations := remaining }
        match env.dsts.find? (fun k => k == operation.account_pair.to_dst_key) with
        | none => (store1, [], .error "dst not found")
        | some key =>
          match env.create_client key with
          | .error e => (store1, [], .error e)
          | .ok client =>
            match apply_operation store1 client operation with
            | .error _ => (store1, [], .error "post failed")
            | .ok store2 =>
              let r := post_go env cancelled fuel (i + 1) store2
              (r.1, operation :: r.2.1, r.2.2)

/-- operations::destination::post (src/operations/destination.rs): the
processor run started on a store. -/
def post (env : Env) (cancelled : Nat → Bool) (store : Store) :
    Store × List Operation × Except String Unit :=
  post_go env cancelled store.operations.length 0 store

/-! ## Helper lemmas -/

theorem user_matches_iff (u : User) (k : AccountKey) :
    user_matches u k = true ↔ u.src_key = k := by
  cases k with
  | mk o i =>
    simp [user_matches, User.src_key, Bool.and_eq_true, beq_iff_eq, AccountKey.mk.injEq]

theorem dst_matches_iff (d : Destination) (k : AccountKey) :
    dst_matches d k = true ↔ d.origin = k.origin ∧ d.identifier = k.identifier := by
  simp [dst_matches, Bool.and_eq_true, beq_iff_eq]

theorem fresh_user_src_key (k : AccountKey) : (fresh_user k).src_key = k := by
  cases k
  simp [fresh_user, User.src_key]

/-! ## C9: uniqueness of users per source account key -/

/-- C9: get_or_create_user_mut returns the existing User when one with the
given origin and identifier is present, and appends a fresh User (empty
statuses, no session, no destinations) only when none is present; the
at-most-one-User-per-source-AccountKey invariant is preserved. -/
theorem get_or_create_user_unique (store : Store) (k : AccountKey)
    (h : (store.users.map User.src_key).Nodup) :
    ((∃ u ∈ store.users, u.src_key = k) →
      (store.get_or_create_user k).1 = store ∧
      (store.get_or_create_user k).2 ∈ store.users ∧
      (store.get_or_create_user k).2.src_key = k) ∧
    ((¬ ∃ u ∈ store.users, u.src_key = k) →
      (store.get_or_create_user k).1.users = store.users ++ [fresh_user k] ∧
      (store.get_or_create_user k).2 = fresh_user k ∧
      (fresh_user k).src.statuses = [] ∧ (fresh_user k).src.session = none ∧
      (fresh_user k).dsts = []) ∧
    ((store.get_or_create_user k).1.users.map User.src_key).Nodup := by
  unfold Store.get_or_create_user
  cases hfind : store.users.find? (fun user => user_matches user k) with
  | some u =>
    have hmem : u ∈ store.users := List.mem_of_find?_eq_some hfind
    have hp := List.find?_some hfind
    have hkey : u.src_key = k := (user_matches_iff u k).mp hp
    refine ⟨fun _ => ⟨rfl, hmem, hkey⟩, fun hno => absurd ⟨u, hmem, hkey⟩ hno, h⟩
  | none =>
    have hall : ∀ u ∈ store.users, ¬ user_matches u k :=
      List.find?_eq_none.mp hfind
    have hnotin : ∀ u ∈ store.users, u.src_key ≠ k := by
      intro u hu hk
      exact hall u hu (by simpa using (user_matches_iff u k).mpr hk)
    refine ⟨fun hex => ?_, fun _ => ⟨rfl, rfl, rfl, rfl, rfl⟩, ?_⟩
    · obtain ⟨u, hu, hk⟩ := hex
      exact absurd hk (hnotin u hu)
    · simp only [List.map_append, List.map_cons, List.map_nil]
      rw [List.nodup_append]
      refine ⟨h, List.nodup_singleton _, ?_⟩
      intro a ha hb
      simp only [List.mem_singleton] at hb
      obtain ⟨u, hu, hua⟩ := List.mem_map.mp ha
      rw [hb, fresh_user_src_key] at hua
      exact hnotin u hu hua

/-- Witness for C9 at a concrete store holding one user. -/
theorem get_or_create_user_unique_witness :
    (((⟨[fresh_user ⟨"o1", "a1"⟩], []⟩ : Store).users.map User.src_key).Nodup) ∧
    ((((⟨[fresh_user ⟨"o1", "a1"⟩], []⟩ : Store).get_or_create_user
        ⟨"o2", "a2"⟩).1.users.map User.src_key).Nodup) :=
  ⟨by decide,
   (get_or_create_user_unique ⟨[fresh_user ⟨"o1", "a1"⟩], []⟩ ⟨"o2", "a2"⟩ (by decide)).2.2⟩

/-! ## C7: UpdatePost is consumed without effect -/

/-- C7: processing an UpdatePost action is not an error: the processor
dispatch returns success for every store and every client and leaves the
store, hence every destination, unchanged. -/
theorem update_post_consumed_without_effect (store : Store) (client : Client)
    (o : UpdatePostOperation) :
    apply_operation store client (.UpdatePost o) = .ok store := rfl

/-! ## C6: retention sweeper -/

/-- The retention predicate of the sweeper, as a proposition: a destination
post must reference an identifier some source status still references (its
own identifier for a post, the target identifier for a repost), a
destination repost must match a still-tracked repost identifier. -/
def still_referenced (users : List User) (st : DestinationStatus) : Prop :=
  match st with
  | .post p => p.src_identifier ∈ necessary_post_src_identifiers users
  | .repost r => r.src_identifier ∈ necessary_repost_src_identifiers users

theorem retain_filter_pred (users : List User) (st : DestinationStatus) :
    (match st with
      | .post p => (necessary_post_src_identifiers users).contains p.src_identifier
      | .repost r => (necessary_repost_src_identifiers users).contains r.src_identifier) = true ↔
    still_referenced users st := by
  cases st with
  | post p =>
    simp only [still_referenced]
    exact List.elem_iff
  | repost r =>
    simp only [still_referenced]
    exact List.elem_iff

/-- C6: after the retention sweeper runs, a DestinationStatus remains
exactly when it was present before and is still referenced; the queue, the
number of users, every source record and every destination key are
unchanged. -/
theorem retain_all_dst_statuses_spec (store : Store) :
    (retain_all_dst_statuses store).operations = store.operations ∧
    (retain_all_dst_statuses store).users.length = store.users.length ∧
    (∀ i : Nat, ((retain_all_dst_statuses store).users[i]?).map User.src =
      (store.users[i]?).map User.src) ∧
    (∀ i j : Nat,
      ((((retain_all_dst_statuses store).users[i]?).bind (fun u => u.dsts[j]?)).map
          (fun d => (d.origin, d.identifier))) =
        (((store.users[i]?).bind (fun u => u.dsts[j]?)).map
          (fun d => (d.origin, d.identifier)))) ∧
    (∀ i j : Nat, ∀ st : DestinationStatus,
      (∃ d, (((retain_all_dst_statuses store).users[i]?).bind (fun u => u.dsts[j]?)) = some d ∧
          st ∈ d.statuses) ↔
      (∃ d, (((store.users[i]?).bind (fun u => u.dsts[j]?)) = some d ∧ st ∈ d.statuses) ∧
        still_referenced store.users st)) ∧
    (∀ u ∈ (retain_all_dst_statuses store).users, ∀ d ∈ u.dsts, ∀ st ∈ d.statuses,
      still_referenced store.users st) := by
  refine ⟨rfl, by simp [retain_all_dst_statuses], ?_, ?_, ?_, ?_⟩
  · intro i
    simp only [retain_all_dst_statuses, List.getElem?_map]
    cases store.users[i]? <;> rfl
  · intro i j
    simp only [retain_all_dst_statuses, List.getElem?_map]
    cases store.users[i]? with
    | none => rfl
    | some u =>
      simp only [Option.map_some', Option.some_bind, List.getElem?_map]
      cases u.dsts[j]? <;> rfl
  · intro i j st
    simp only [retain_all_dst_statuses, List.getElem?_map]
    cases store.users[i]? with
    | none => simp
    | some u =>
      simp only [Option.map_some', Option.some_bind, List.getElem?_map]
      cases u.dsts[j]? with
      | none => simp
      | some d =>
        simp only [Option.map_some', Option.some.injEq]
        constructor
        · rintro ⟨d2, hd2, hst⟩
          subst hd2
          simp only [List.mem_filter] at hst
          exact ⟨d, ⟨rfl, hst.1⟩, (retain_filter_pred store.users st).mp hst.2⟩
        · rintro ⟨d2, ⟨hd2, hst⟩, href⟩
          cases hd2
          exact ⟨_, rfl, List.mem_filter.mpr ⟨hst, (retain_filter_pred store.users st).mpr href⟩⟩
  · intro u hu d hd st hst
    simp only [retain_all_dst_statuses, List.mem_map] at hu
    obtain ⟨u0, _, hu0⟩ := hu
    subst hu0
    simp only [List.mem_map] at hd
    obtain ⟨d0, _, hd0⟩ := hd
    subst hd0
    simp only [List.mem_filter] at hst
    exact (retain_filter_pred store.users st).mp hst.2

/-- A concrete store exercising the retention sweeper: two destination
statuses reference identifiers no source status references any longer. -/
def sweeperStore : Store :=
  { users := [
      { src := { origin := "o", identifier := "a", session := none,
                 statuses := [
                   .post { identifier := "P1", uri := "u", content := "c", facets := [],
                           reply_src_identifier := none, media := [], external := none,
                           created_at := "t" },
                   .repost { identifier := "R1", target_identifier := "P2",
                             created_at := "t" } ] },
        dsts := [
          { origin := "d", identifier := "b",
            statuses := [
              .post { identifier := "x1", src_identifier := "P1" },
              .post { identifier := "x2", src_identifier := "P2" },
              .post { identifier := "x3", src_identifier := "gone" },
              .repost { identifier := "x4", src_identifier := "R1" },
              .repost { identifier := "x5", src_identifier := "gone" } ] } ] } ],
    operations := [] }

/-- The destination remaining after the sweeper runs on sweeperStore. -/
def sweeperDstAfter : Destination :=
  { origin := "d", identifier := "b",
    statuses := [
      .post { identifier := "x1", src_identifier := "P1" },
      .post { identifier := "x2", src_identifier := "P2" },
      .repost { identifier := "x4", src_identifier := "R1" } ] }

/-- The user remaining after the sweeper runs on sweeperStore. -/
def sweeperUserAfter : User :=
  { src := { origin := "o", identifier := "a", session := none,
             statuses := [
               .post { identifier := "P1", uri := "u", content := "c", facets := [],
                       reply_src_identifier := none, media := [], external := none,
                       created_at := "t" },
               .repost { identifier := "R1", target_identifier := "P2",
                         created_at := "t" } ] },
    dsts := [sweeperDstAfter] }

/-- Witness for C6 on sweeperStore: a surviving repost status references a
still-tracked repost identifier. -/
theorem retain_all_dst_statuses_spec_witness :
    still_referenced sweeperStore.users
      (.repost { identifier := "x4", src_identifier := "R1" }) :=
  (retain_all_dst_statuses_spec sweeperStore).2.2.2.2.2 sweeperUserAfter (by decide)
    sweeperDstAfter (by decide)
    (.repost { identifier := "x4", src_identifier := "R1" }) (by decide)

/-! ## C3, C4: delete handlers -/

theorem to_dst_identifier_eq_none (s : String) (store : Store) :
    to_dst_identifier s store = none ↔
      ∀ st ∈ store.all_dst_statuses, st.src_identifier ≠ s := by
  unfold to_dst_identifier
  rw [Option.map_eq_none']
  rw [List.find?_eq_none]
  constructor
  · intro h st hst
    have := h st hst
    simpa [beq_iff_eq] using this
  · intro h st hst
    simpa [beq_iff_eq] using h st hst

theorem removeFirstStatus_length (p : DestinationStatus → Bool) :
    ∀ l l2, removeFirstStatus p l = some l2 → l2.length + 1 = l.length := by
  intro l
  induction l with
  | nil => intro l2 h; simp [removeFirstStatus] at h
  | cons s rest ih =>
    intro l2 h
    by_cases hp : p s
    · simp [removeFirstStatus, hp] at h
      subst h
      rfl
    · simp [removeFirstStatus, hp] at h
      obtain ⟨r, hr, hl2⟩ := h
      subst hl2
      have := ih r hr
      simp only [List.length_cons]
      omega


theorem removeFirstStatus_exists (p : DestinationStatus → Bool) :
    ∀ l, (∃ s ∈ l, p s = true) → ∃ l2, removeFirstStatus p l = some l2 := by
  intro l
  induction l with
  | nil => rintro ⟨s, hs, _⟩; cases hs
  | cons s rest ih =>
    rintro ⟨x, hx, hpx⟩
    by_cases hp : p s
    · exact ⟨rest, by simp [removeFirstStatus, hp]⟩
    · rcases List.mem_cons.mp hx with h | h
      · subst h; exact absurd hpx hp
      · obtain ⟨l2, hl2⟩ := ih ⟨x, h, hpx⟩
        exact ⟨s :: l2, by simp [removeFirstStatus, hp, hl2]⟩

theorem removeFirstInDsts_length (p : DestinationStatus → Bool) :
    ∀ ds ds2, removeFirstInDsts p ds = some ds2 →
      (ds2.flatMap (fun d => d.statuses)).length + 1 =
        (ds.flatMap (fun d => d.statuses)).length := by
  intro ds
  induction ds with
  | nil => intro ds2 h; simp [removeFirstInDsts] at h
  | cons d rest ih =>
    intro ds2 h
    unfold removeFirstInDsts at h
    cases hs : removeFirstStatus p d.statuses with
    | some sts =>
      rw [hs] at h
      simp only [Option.some.injEq] at h
      subst h
      simp only [List.flatMap_cons, List.length_append]
      have := removeFirstStatus_length p d.statuses sts hs
      omega
    | none =>
      rw [hs] at h
      simp only [Option.map_eq_some'] at h
      obtain ⟨r, hr, hds2⟩ := h
      subst hds2
      simp only [List.flatMap_cons, List.length_append]
      have := ih r hr
      omega

theorem removeFirstInUsers_length (p : DestinationStatus → Bool) :
    ∀ us us2, removeFirstInUsers p us = some us2 →
      ((us2.flatMap (fun u => u.dsts)).flatMap (fun d => d.statuses)).length + 1 =
        ((us.flatMap (fun u => u.dsts)).flatMap (fun d => d.statuses)).length := by
  intro us
  induction us with
  | nil => intro us2 h; simp [removeFirstInUsers] at h
  | cons u rest ih =>
    intro us2 h
    unfold removeFirstInUsers at h
    cases hs : removeFirstInDsts p u.dsts with
    | some ds =>
      rw [hs] at h
      simp only [Option.some.injEq] at h
      subst h
      simp only [List.flatMap_cons, List.flatMap_append, List.length_append]
      have := removeFirstInDsts_length p u.dsts ds hs
      omega
    | none =>
      rw [hs] at h
      simp only [Option.map_eq_some'] at h
      obtain ⟨r, hr, hus2⟩ := h
      subst hus2
      simp only [List.flatMap_cons, List.flatMap_append, List.length_append]
      have := ih r hr
      omega

theorem removeFirstInDsts_exists (p : DestinationStatus → Bool) :
    ∀ ds, (∃ d ∈ ds, ∃ s ∈ d.statuses, p s = true) →
      ∃ ds2, removeFirstInDsts p ds = some ds2 := by
  intro ds
  induction ds with
  | nil => rintro ⟨d, hd, _⟩; cases hd
  | cons d rest ih =>
    rintro ⟨d0, hd0, x, hx, hpx⟩
    unfold removeFirstInDsts
    cases hs : removeFirstStatus p d.statuses with
    | some sts => exact ⟨_, rfl⟩
    | none =>
      rcases List.mem_cons.mp hd0 with h | h
      · subst h
        obtain ⟨l2, hl2⟩ := removeFirstStatus_exists p _ ⟨x, hx, hpx⟩
        rw [hl2] at hs
        cases hs
      · obtain ⟨r, hr⟩ := ih ⟨d0, h, x, hx, hpx⟩
        rw [hr]
        exact ⟨_, rfl⟩

theorem removeFirstInUsers_exists (p : DestinationStatus → Bool) :
    ∀ us, (∃ u ∈ us, ∃ d ∈ u.dsts, ∃ s ∈ d.statuses, p s = true) →
      ∃ us2, removeFirstInUsers p us = some us2 := by
  intro us
  induction us with
  | nil => rintro ⟨u, hu, _⟩; cases hu
  | cons u rest ih =>
    rintro ⟨u0, hu0, d0, hd0, x, hx, hpx⟩
    unfold removeFirstInUsers
    cases hs : removeFirstInDsts p u.dsts with
    | some ds => exact ⟨_, rfl⟩
    | none =>
      rcases List.mem_cons.mp hu0 with h | h
      · subst h
        obtain ⟨l2, hl2⟩ := removeFirstInDsts_exists p _ ⟨d0, hd0, x, hx, hpx⟩
        rw [hl2] at hs
        cases hs
      · obtain ⟨r, hr⟩ := ih ⟨u0, h, d0, hd0, x, hx, hpx⟩
        rw [hr]
        exact ⟨_, rfl⟩

/-- C3: a DeletePost or DeleteRepost action whose src_identifier matches no
DestinationStatus anywhere in the Store is a no-op success for every
client, leaving the Store, hence every Destination.statuses list,
unchanged. -/
theorem delete_missing_is_noop (store : Store) (client : Client)
    (pair : AccountPair) (s : String)
    (h : ∀ st ∈ store.all_dst_statuses, st.src_identifier ≠ s) :
    delete_post store client
        { account_pair := pair, status := { src_identifier := s } } = .ok store ∧
    delete_repost store client
        { account_pair := pair, status := { src_identifier := s } } = .ok store := by
  have hto : to_dst_identifier s store = none := (to_dst_identifier_eq_none s store).mpr h
  constructor
  · simp only [delete_post]
    rw [hto]
  · simp only [delete_repost]
    rw [hto]

/-- A client whose create capabilities fail and whose delete capabilities
succeed. -/
def deleteOnlyClient : Client :=
  { post := fun _ _ _ _ _ _ => .error "n", repost := fun _ _ => .error "n",
    delete_post := fun _ => .ok (), delete_repost := fun _ => .ok () }

/-- An account pair used by the concrete examples. -/
def examplePair : AccountPair :=
  { src_origin := "o", src_account_identifier := "a",
    dst_origin := "d", dst_account_identifier := "b" }

/-- Witness for C3 on a store holding only unrelated statuses. -/
theorem delete_missing_is_noop_witness :
    (∀ st ∈ sweeperStore.all_dst_statuses, st.src_identifier ≠ "zz") ∧
    delete_post sweeperStore deleteOnlyClient
      { account_pair := examplePair, status := { src_identifier := "zz" } } =
        .ok sweeperStore :=
  ⟨by decide,
   (delete_missing_is_noop sweeperStore deleteOnlyClient examplePair "zz" (by decide)).1⟩

/-- C4: when the src_identifier of a delete action matches an existing
DestinationStatus (the first match of the reverse lookup), the handler
invokes the delete capability on the found destination identifier (its
failure is the result of the handler), and on success removes the matching
DestinationStatus: the total number of destination statuses shrinks by
exactly one and the rest of the Store is untouched. -/
theorem delete_found_removes (store : Store) (client : Client)
    (pair : AccountPair) (s : String) (st : DestinationStatus)
    (hfind : (store.all_dst_statuses).find? (fun d => d.src_identifier == s) = some st) :
    (∀ e, client.delete_post st.identifier = .error e →
      delete_post store client
        { account_pair := pair, status := { src_identifier := s } } = .error e) ∧
    (client.delete_post st.identifier = .ok () →
      delete_post store client
          { account_pair := pair, status := { src_identifier := s } } =
        .ok (store.remove_dst_status (fun d => d.src_identifier == s)) ∧
      (store.remove_dst_status (fun d => d.src_identifier == s)).total_dst_statuses + 1 =
        store.total_dst_statuses ∧
      (store.remove_dst_status (fun d => d.src_identifier == s)).operations =
        store.operations) ∧
    (∀ e, client.delete_repost st.identifier = .error e →
      delete_repost store client
        { account_pair := pair, status := { src_identifier := s } } = .error e) ∧
    (client.delete_repost st.identifier = .ok () →
      delete_repost store client
          { account_pair := pair, status := { src_identifier := s } } =
        .ok (store.remove_dst_status (fun d => d.src_identifier == s))) := by
  have hto : to_dst_identifier s store = some st.identifier := by
    unfold to_dst_identifier
    rw [hfind]
    rfl
  have hmem : st ∈ store.all_dst_statuses := List.mem_of_find?_eq_some hfind
  have hpst := List.find?_some hfind
  obtain ⟨d, hd, hstd⟩ := List.mem_flatMap.mp hmem
  obtain ⟨u, hu, hdu⟩ := List.mem_flatMap.mp hd
  obtain ⟨us2, hus2⟩ := removeFirstInUsers_exists (fun d => d.src_identifier == s)
    store.users ⟨u, hu, d, hdu, st, hstd, hpst⟩
  have hremove : store.remove_dst_status (fun d => d.src_identifier == s) =
      { store with users := us2 } := by
    unfold Store.remove_dst_status
    rw [hus2]
  have hcount : (store.remove_dst_status (fun d => d.src_identifier == s)).total_dst_statuses + 1 =
      store.total_dst_statuses := by
    rw [hremove]
    exact removeFirstInUsers_length (fun d => d.src_identifier == s) store.users us2 hus2
  refine ⟨?_, ?_, ?_, ?_⟩
  · intro e he
    simp only [delete_post]
    rw [hto]
    simp only [he]
  · intro hok
    refine ⟨?_, hcount, ?_⟩
    · simp only [delete_post]
      rw [hto]
      simp only [hok]
    · rw [hremove]
  · intro e he
    simp only [delete_repost]
    rw [hto]
    simp only [he]
  · intro hok
    simp only [delete_repost]
    rw [hto]
    simp only [hok]

/-- Witness for C4 on sweeperStore: deleting P2 removes its mirrored
status. -/
theorem delete_found_removes_witness :
    ((sweeperStore.all_dst_statuses).find? (fun d => d.src_identifier == "P2") =
      some (.post { identifier := "x2", src_identifier := "P2" })) ∧
    (deleteOnlyClient.delete_post "x2" = .ok ()) ∧
    ((sweeperStore.remove_dst_status (fun d => d.src_identifier == "P2")).total_dst_statuses + 1 =
      sweeperStore.total_dst_statuses) :=
  ⟨by decide, rfl,
   ((delete_found_removes sweeperStore deleteOnlyClient examplePair "P2"
      (.post { identifier := "x2", src_identifier := "P2" }) (by decide)).2.1 rfl).2.1⟩

/-! ## C8: create_post reply threading -/

theorem user_matches_fresh (k : AccountKey) : user_matches (fresh_user k) k = true := by
  cases k
  simp [user_matches, fresh_user]

theorem dst_matches_fresh (k : AccountKey) : dst_matches (fresh_dst k) k = true := by
  cases k
  simp [dst_matches, fresh_dst]

theorem find?_updateFirst (p : α → Bool) (f : α → α) (mk : α)
    (hf : ∀ x, p (f x) = p x) (hmk : p mk = true) :
    ∀ l : List α, (updateFirst p f mk l).find? p = some (f ((l.find? p).getD mk)) := by
  intro l
  induction l with
  | nil =>
    simp only [updateFirst, List.find?_nil, Option.getD_none]
    rw [List.find?_cons_of_pos]
    rw [hf]
    exact hmk
  | cons x xs ih =>
    by_cases hx : p x
    · simp only [updateFirst, hx, if_true]
      rw [List.find?_cons_of_pos, List.find?_cons_of_pos]
      · rfl
      · exact hx
      · rw [hf]; exact hx
    · simp only [updateFirst, hx, if_false, Bool.false_eq_true]
      rw [List.find?_cons_of_neg, List.find?_cons_of_neg]
      · exact ih
      · simp [hx]
      · simp [hf, hx]

/-- Mutating the statuses of the destination addressed by an AccountPair
through the get-or-create chain acts exactly on the status list the lookup
of that pair returns (the empty list when the destination did not exist). -/
theorem dst_statuses_modify (store : Store) (pair : AccountPair)
    (g : List DestinationStatus → List DestinationStatus) :
    (store.modify_dst pair (fun d => { d with statuses := g d.statuses })).dst_statuses pair =
      g (store.dst_statuses pair) := by
  have hfu : ∀ u : User,
      user_matches (u.modify_dst pair.to_dst_key (fun d => { d with statuses := g d.statuses }))
        pair.to_src_key = user_matches u pair.to_src_key := fun _ => rfl
  have hfd : ∀ d : Destination,
      dst_matches { d with statuses := g d.statuses } pair.to_dst_key =
        dst_matches d pair.to_dst_key := fun _ => rfl
  have h1 := find?_updateFirst (fun u => user_matches u pair.to_src_key)
    (fun u => u.modify_dst pair.to_dst_key (fun d => { d with statuses := g d.statuses }))
    (fresh_user pair.to_src_key) hfu (user_matches_fresh pair.to_src_key) store.users
  have h2 := find?_updateFirst (fun d => dst_matches d pair.to_dst_key)
    (fun d => { d with statuses := g d.statuses })
    (fresh_dst pair.to_dst_key) hfd (dst_matches_fresh pair.to_dst_key)
  simp only [Store.modify_dst, Store.modify_user, Store.dst_statuses, Store.find_dst]
  rw [h1]
  simp only [Option.some_bind, User.modify_dst]
  rw [h2]
  cases hu : store.users.find? (fun u => user_matches u pair.to_src_key) with
  | none =>
    simp only [Option.getD_none, Option.none_bind, fresh_user, List.find?_nil]
    simp [fresh_dst]
  | some u =>
    simp only [Option.getD_some, Option.some_bind]
    cases hd : u.dsts.find? (fun d => dst_matches d pair.to_dst_key) with
    | none => simp [fresh_dst]
    | some d => simp

/-- C8: for a CreatePost action carrying a reply-parent identifier, the
handler searches all DestinationStatus entries across all users and
destinations for one whose src_identifier equals that identifier: when none
matches, the create capability is invoked with no reply target; when the
search finds one, the create capability is invoked with its destination
identifier; and on success a new DestinationStatus with the returned
identifier and the src_identifier of the action is prepended to the status
list of the target Destination. -/
theorem create_post_reply_threading (store : Store) (client : Client)
    (op : CreatePostOperation) (reply : String)
    (hr : op.status.reply_src_identifier = some reply) :
    ((∀ st ∈ store.all_dst_statuses, st.src_identifier ≠ reply) →
      create_post store client op =
        Except.map
          (fun dst_identifier => store.modify_dst op.account_pair (fun d =>
            { d with statuses := DestinationStatus.post ⟨dst_identifier, op.status.src_identifier⟩ :: d.statuses }))
          (client.post op.status.content op.status.facets none op.status.media
            op.status.external op.status.created_at)) ∧
    (∀ st, (store.all_dst_statuses).find? (fun d => d.src_identifier == reply) = some st →
      st ∈ store.all_dst_statuses ∧ st.src_identifier = reply ∧
      create_post store client op =
        Except.map
          (fun dst_identifier => store.modify_dst op.account_pair (fun d =>
            { d with statuses := DestinationStatus.post ⟨dst_identifier, op.status.src_identifier⟩ :: d.statuses }))
          (client.post op.status.content op.status.facets (some st.identifier) op.status.media
            op.status.external op.status.created_at)) ∧
    (∀ dst_identifier,
      (store.modify_dst op.account_pair (fun d =>
        { d with statuses := DestinationStatus.post ⟨dst_identifier, op.status.src_identifier⟩ :: d.statuses })).dst_statuses op.account_pair =
        DestinationStatus.post ⟨dst_identifier, op.status.src_identifier⟩ ::
          store.dst_statuses op.account_pair) := by
  refine ⟨?_, ?_, ?_⟩
  · intro h
    have hto : to_dst_identifier reply store = none := (to_dst_identifier_eq_none reply store).mpr h
    simp only [create_post, hr, Option.some_bind, hto]
    cases hpost : client.post op.status.content op.status.facets none op.status.media
        op.status.external op.status.created_at <;> simp [Except.map]
  · intro st hfind
    have hto : to_dst_identifier reply store = some st.identifier := by
      unfold to_dst_identifier
      rw [hfind]
      rfl
    have hpst := List.find?_some hfind
    refine ⟨List.mem_of_find?_eq_some hfind, by simpa [beq_iff_eq] using hpst, ?_⟩
    simp only [create_post, hr, Option.some_bind, hto]
    cases hpost : client.post op.status.content op.status.facets (some st.identifier)
        op.status.media op.status.external op.status.created_at <;> simp [Except.map]
  · intro dst_identifier
    exact dst_statuses_modify store op.account_pair
      (fun sts => DestinationStatus.post
        { identifier := dst_identifier, src_identifier := op.status.src_identifier } :: sts)

/-- A CreatePost action replying to P1, addressed to the example pair. -/
def replyOp : CreatePostOperation :=
  { account_pair := examplePair,
    status := { src_identifier := "P9", content := "hi", facets := [],
                reply_src_identifier := some "P1", media := [], external := none,
                created_at := "t" } }

/-- A client whose create capability always returns the identifier x9. -/
def okPostClient : Client :=
  { post := fun _ _ _ _ _ _ => .ok "x9", repost := fun _ _ => .ok "x9",
    delete_post := fun _ => .ok (), delete_repost := fun _ => .ok () }

/-- Witness for C8 on sweeperStore: the reply parent P1 is resolved to the
mirrored identifier x1 and the created status is prepended. -/
theorem create_post_reply_threading_witness :
    (replyOp.status.reply_src_identifier = some "P1") ∧
    ((sweeperStore.all_dst_statuses).find? (fun d => d.src_identifier == "P1") =
      some (.post { identifier := "x1", src_identifier := "P1" })) ∧
    create_post sweeperStore okPostClient replyOp =
      Except.map
        (fun dst_identifier => sweeperStore.modify_dst replyOp.account_pair (fun d =>
          { d with statuses := DestinationStatus.post ⟨dst_identifier, replyOp.status.src_identifier⟩ :: d.statuses }))
        (okPostClient.post replyOp.status.content replyOp.status.facets (some "x1")
          replyOp.status.media replyOp.status.external replyOp.status.created_at) :=
  ⟨rfl, by decide,
   ((create_post_reply_threading sweeperStore okPostClient replyOp "P1" rfl).2.1
      (.post { identifier := "x1", src_identifier := "P1" }) (by decide)).2.2⟩

/-! ## C5: fan-out -/

theorem to_store_account_pair (op : SourceOperation) (p : AccountPair) :
    (op.to_store p).account_pair = p := by
  cases op <;> rfl

theorem to_store_payload (op : SourceOperation) (p : AccountPair) :
    (op.to_store p).payload = op := by
  cases op <;> rfl

theorem to_store_injective (p : AccountPair) :
    Function.Injective (fun op : SourceOperation => op.to_store p) := by
  intro a b h
  have hp := congrArg Operation.payload h
  simpa [to_store_payload] using hp

theorem mk_account_pair_dst_injective (src_key : AccountKey) (k1 k2 : AccountKey)
    (h : k1 ≠ k2) : mk_account_pair src_key k1 ≠ mk_account_pair src_key k2 := by
  intro hmk
  apply h
  cases k1
  cases k2
  simp only [mk_account_pair, AccountPair.mk.injEq] at hmk
  simp [AccountKey.mk.injEq]
  exact ⟨hmk.2.2.1, hmk.2.2.2⟩

theorem fan_block_count_zero (src_key : AccountKey) (ops : List SourceOperation)
    (op : SourceOperation) (dk k : AccountKey) (h : k ≠ dk) :
    (ops.map (fun o => o.to_store (mk_account_pair src_key k))).count
      (op.to_store (mk_account_pair src_key dk)) = 0 := by
  rw [List.count_eq_zero]
  intro hmem
  obtain ⟨o, _, heq⟩ := List.mem_map.mp hmem
  have hp := congrArg Operation.account_pair heq
  simp only [to_store_account_pair] at hp
  exact mk_account_pair_dst_injective src_key k dk h hp

theorem fan_count (src_key : AccountKey) (ops : List SourceOperation) (hops : ops.Nodup)
    (op : SourceOperation) (hop : op ∈ ops) :
    ∀ keys : List AccountKey, keys.Nodup → ∀ dk ∈ keys,
      (keys.flatMap (fun k => ops.map (fun o => o.to_store (mk_account_pair src_key k)))).count
        (op.to_store (mk_account_pair src_key dk)) = 1 := by
  intro keys
  induction keys with
  | nil => intro _ dk hdk; cases hdk
  | cons k rest ih =>
    intro hnd dk hdk
    have hknotin : k ∉ rest := (List.nodup_cons.mp hnd).1
    have hndrest : rest.Nodup := (List.nodup_cons.mp hnd).2
    rw [List.flatMap_cons, List.count_append]
    rcases List.mem_cons.mp hdk with h | h
    · subst h
      have h0 : (ops.map (fun o => o.to_store (mk_account_pair src_key dk))).count
          (op.to_store (mk_account_pair src_key dk)) = 1 := by
        have := List.count_map_of_injective ops
          (fun o : SourceOperation => o.to_store (mk_account_pair src_key dk))
          (to_store_injective (mk_account_pair src_key dk)) op
        rw [this]
        exact List.count_eq_one_of_mem hops hop
      have h1 : (rest.flatMap (fun k =>
          ops.map (fun o => o.to_store (mk_account_pair src_key k)))).count
            (op.to_store (mk_account_pair src_key dk)) = 0 := by
        rw [List.count_eq_zero]
        intro hmem
        obtain ⟨k2, hk2, hmem2⟩ := List.mem_flatMap.mp hmem
        obtain ⟨o, _, heq⟩ := List.mem_map.mp hmem2
        have hp := congrArg Operation.account_pair heq
        simp only [to_store_account_pair] at hp
        have : k2 = dk := by
          cases k2
          cases dk
          simp only [mk_account_pair, AccountPair.mk.injEq] at hp
          simp [AccountKey.mk.injEq]
          exact ⟨hp.2.2.1, hp.2.2.2⟩
        subst this
        exact hknotin hk2
      rw [h0, h1]
    · have hk : k ≠ dk := fun hkdk => hknotin (hkdk ▸ h)
      rw [fan_block_count_zero src_key ops op dk k hk]
      rw [ih hndrest dk h]

theorem fan_length (src_key : AccountKey) (ops : List SourceOperation) :
    ∀ keys : List AccountKey,
      (keys.flatMap (fun k =>
        ops.map (fun o => o.to_store (mk_account_pair src_key k)))).length =
        keys.length * ops.length := by
  intro keys
  induction keys with
  | nil => simp
  | cons k rest ih =>
    rw [List.flatMap_cons, List.length_append, List.length_map, ih]
    rw [List.length_cons]
    ring

/-- C5: fan-out appends exactly one stamped clone of every source-level
action per configured destination key: the queue keeps its old prefix and
grows by keys times actions entries; every appended entry is a stamped
clone; every action and key yield exactly one appended entry (keys and
actions free of duplicates); the stamp determines the pair and the payload
is identical to the source action; distinct keys give distinct pairs. -/
theorem merge_operations_fanout (store : Store) (dst_keys : List AccountKey)
    (src_key : AccountKey) (ops : List SourceOperation)
    (hk : dst_keys.Nodup) (hops : ops.Nodup) :
    ∃ appended,
      (merge_operations store dst_keys src_key ops).operations =
        store.operations ++ appended ∧
      appended.length = dst_keys.length * ops.length ∧
      (∀ q ∈ appended, ∃ op ∈ ops, ∃ dk ∈ dst_keys,
        q = op.to_store (mk_account_pair src_key dk)) ∧
      (∀ op ∈ ops, ∀ dk ∈ dst_keys,
        appended.count (op.to_store (mk_account_pair src_key dk)) = 1) ∧
      (∀ op : SourceOperation, ∀ p : AccountPair,
        (op.to_store p).account_pair = p ∧ (op.to_store p).payload = op) ∧
      (∀ k1 ∈ dst_keys, ∀ k2 ∈ dst_keys, k1 ≠ k2 →
        mk_account_pair src_key k1 ≠ mk_account_pair src_key k2) := by
  refine ⟨_, rfl, ?_, ?_, ?_, ?_, ?_⟩
  · exact fan_length src_key ops dst_keys
  · intro q hq
    obtain ⟨dk, hdk, hq2⟩ := List.mem_flatMap.mp hq
    obtain ⟨op, hop, heq⟩ := List.mem_map.mp hq2
    exact ⟨op, hop, dk, hdk, heq.symm⟩
  · intro op hop dk hdk
    exact fan_count src_key ops hops op hop dst_keys hk dk hdk
  · intro op p
    exact ⟨to_store_account_pair op p, to_store_payload op p⟩
  · intro k1 _ k2 _ h
    exact mk_account_pair_dst_injective src_key k1 k2 h

/-- Two destination keys of the spec example. -/
def exampleDstKeys : List AccountKey := [⟨"d1", "b1"⟩, ⟨"d2", "b2"⟩]

/-- One source-level Create action for the spec example. -/
def exampleSrcOps : List SourceOperation :=
  [.CreatePost { src_identifier := "P3", content := "c", facets := [],
                 reply_src_identifier := none, media := [], external := none,
                 created_at := "t" }]

/-- Witness for C5: one source action fanned out to two destinations. -/
theorem merge_operations_fanout_witness :
    exampleDstKeys.Nodup ∧ exampleSrcOps.Nodup ∧
    ∃ appended,
      (merge_operations ⟨[], []⟩ exampleDstKeys ⟨"s", "a"⟩ exampleSrcOps).operations =
        ([] : List Operation) ++ appended ∧
      appended.length = exampleDstKeys.length * exampleSrcOps.length ∧
      (∀ q ∈ appended, ∃ op ∈ exampleSrcOps, ∃ dk ∈ exampleDstKeys,
        q = op.to_store (mk_account_pair ⟨"s", "a"⟩ dk)) ∧
      (∀ op ∈ exampleSrcOps, ∀ dk ∈ exampleDstKeys,
        appended.count (op.to_store (mk_account_pair ⟨"s", "a"⟩ dk)) = 1) ∧
      (∀ op : SourceOperation, ∀ p : AccountPair,
        (op.to_store p).account_pair = p ∧ (op.to_store p).payload = op) ∧
      (∀ k1 ∈ exampleDstKeys, ∀ k2 ∈ exampleDstKeys, k1 ≠ k2 →
        mk_account_pair ⟨"s", "a"⟩ k1 ≠ mk_account_pair ⟨"s", "a"⟩ k2) :=
  ⟨by decide, by decide,
   merge_operations_fanout ⟨[], []⟩ exampleDstKeys ⟨"s", "a"⟩ exampleSrcOps
     (by decide) (by decide)⟩

/-! ## C2: reconciliation diff -/

def targets (id : String) (o : SourceOperation) : Bool :=
  o.src_identifier == id

def is_create_post_for (id : String) : SourceOperation → Bool
  | .CreatePost s => s.src_identifier == id
  | _ => false

def is_create_repost_for (id : String) : SourceOperation → Bool
  | .CreateRepost s => s.src_identifier == id
  | _ => false

def is_delete_post_for (id : String) : SourceOperation → Bool
  | .DeletePost s => s.src_identifier == id
  | _ => false

def is_delete_repost_for (id : String) : SourceOperation → Bool
  | .DeleteRepost s => s.src_identifier == id
  | _ => false

theorem countP_le_one_of_nodup_map (g : α → String) (id : String) :
    ∀ l : List α, (l.map g).Nodup → l.countP (fun a => g a == id) ≤ 1 := by
  intro l
  induction l with
  | nil => intro _; simp
  | cons x xs ih =>
    intro hnd
    rw [List.map_cons, List.nodup_cons] at hnd
    rw [List.countP_cons]
    by_cases hx : g x = id
    · have hzero : xs.countP (fun a => g a == id) = 0 := by
        rw [List.countP_eq_zero]
        intro a ha hga
        rw [beq_iff_eq] at hga
        exact hnd.1 (by rw [← hx] at hga; exact hga ▸ List.mem_map_of_mem g ha)
      simp [hzero, hx]
    · have : (g x == id) = false := by simp [hx]
      simp only [this, if_false]
      simpa using ih hnd.2

theorem countP_eq_one_of_nodup_map (g : α → String) (id : String) (l : List α)
    (hnd : (l.map g).Nodup) (p : α → Bool)
    (himp : ∀ a ∈ l, p a = true → g a = id)
    (a : α) (ha : a ∈ l) (hpa : p a = true) :
    l.countP p = 1 := by
  have hle : l.countP p ≤ l.countP (fun a => g a == id) := by
    apply List.countP_mono_left
    intro x hx hpx
    rw [beq_iff_eq]
    exact himp x hx hpx
  have h1 : l.countP (fun a => g a == id) ≤ 1 := countP_le_one_of_nodup_map g id l hnd
  have hge : 0 < l.countP p := List.countP_pos_iff.mpr ⟨a, ha, hpa⟩
  omega

theorem countP_create_part (p : SourceOperation → Bool) (live : List LiveStatus)
    (stored : List SourceStatus) :
    ((live.filter (fun l =>
        !(stored.any (fun s => s.identifier == l.identifier)))).map live_to_create).countP p =
      live.countP (fun l =>
        p (live_to_create l) && !(stored.any (fun s => s.identifier == l.identifier))) := by
  rw [List.countP_map, List.countP_filter]
  rfl

theorem countP_delete_part (p : SourceOperation → Bool) (live : List LiveStatus)
    (stored : List SourceStatus) :
    ((stored.filter (fun s =>
        !(live.any (fun l => l.identifier == s.identifier)))).map stored_to_delete).countP p =
      stored.countP (fun s =>
        p (stored_to_delete s) && !(live.any (fun l => l.identifier == s.identifier))) := by
  rw [List.countP_map, List.countP_filter]
  rfl

theorem live_to_create_targets (id : String) (l : LiveStatus) :
    targets id (live_to_create l) = (l.identifier == id) := by
  cases l <;> rfl

theorem stored_to_delete_targets (id : String) (s : SourceStatus) :
    targets id (stored_to_delete s) = (s.identifier == id) := by
  cases s <;> rfl

theorem fresh_iff (stored : List SourceStatus) (l : LiveStatus) :
    (!(stored.any (fun s => s.identifier == l.identifier))) = true ↔
      l.identifier ∉ stored.map SourceStatus.identifier := by
  constructor
  · intro h hmem
    obtain ⟨s, hs, hid⟩ := List.mem_map.mp hmem
    have hany : stored.any (fun s => s.identifier == l.identifier) = true :=
      List.any_eq_true.mpr ⟨s, hs, by rw [beq_iff_eq]; exact hid⟩
    rw [hany] at h
    simp at h
  · intro h
    cases hany : stored.any (fun s => s.identifier == l.identifier) with
    | false => rfl
    | true =>
      obtain ⟨s, hs, hid⟩ := List.any_eq_true.mp hany
      rw [beq_iff_eq] at hid
      exact absurd (List.mem_map.mpr ⟨s, hs, hid⟩) h

theorem gone_iff (live : List LiveStatus) (s : SourceStatus) :
    (!(live.any (fun l => l.identifier == s.identifier))) = true ↔
      s.identifier ∉ live.map LiveStatus.identifier := by
  constructor
  · intro h hmem
    obtain ⟨l, hl, hid⟩ := List.mem_map.mp hmem
    have hany : live.any (fun l => l.identifier == s.identifier) = true :=
      List.any_eq_true.mpr ⟨l, hl, by rw [beq_iff_eq]; exact hid⟩
    rw [hany] at h
    simp at h
  · intro h
    cases hany : live.any (fun l => l.identifier == s.identifier) with
    | false => rfl
    | true =>
      obtain ⟨l, hl, hid⟩ := List.any_eq_true.mp hany
      rw [beq_iff_eq] at hid
      exact absurd (List.mem_map.mpr ⟨l, hl, hid⟩) h

/-- C2: for every baseline snapshot list and live fetch list (both free of
duplicate identifiers), reconciliation emits exactly one Create action per
identifier in live but not baseline (CreatePost for a post, CreateRepost
for a repost), exactly one Delete action per identifier in baseline but not
live (DeletePost for a post, DeleteRepost for a repost), no action for an
identifier in both, and the replacement snapshot is the live fetch,
verbatim. -/
theorem create_operations_diff (live : List LiveStatus) (stored : List SourceStatus)
    (hl : (live.map LiveStatus.identifier).Nodup)
    (hs : (stored.map SourceStatus.identifier).Nodup) :
    (∀ l ∈ live, l.identifier ∉ stored.map SourceStatus.identifier →
      (create_operations live stored).countP (targets l.identifier) = 1 ∧
      (match l with
       | .post _ => (create_operations live stored).countP (is_create_post_for l.identifier) = 1
       | .repost _ =>
         (create_operations live stored).countP (is_create_repost_for l.identifier) = 1)) ∧
    (∀ s ∈ stored, s.identifier ∉ live.map LiveStatus.identifier →
      (create_operations live stored).countP (targets s.identifier) = 1 ∧
      (match s with
       | .post _ => (create_operations live stored).countP (is_delete_post_for s.identifier) = 1
       | .repost _ =>
         (create_operations live stored).countP (is_delete_repost_for s.identifier) = 1)) ∧
    (∀ id : String, id ∈ live.map LiveStatus.identifier →
      id ∈ stored.map SourceStatus.identifier →
      (create_operations live stored).countP (targets id) = 0) ∧
    (fetch_statuses live stored).1 = live.map LiveStatus.into ∧
    (fetch_statuses live stored).2 = create_operations live stored := by
  refine ⟨?_, ?_, ?_, rfl, rfl⟩
  · intro l hl0 hnot
    constructor
    · unfold create_operations
      rw [List.countP_append, countP_create_part, countP_delete_part]
      have himpA : ∀ a ∈ live,
          (targets l.identifier (live_to_create a) &&
            !(stored.any (fun s => s.identifier == a.identifier))) = true →
          a.identifier = l.identifier := by
        intro a ha hpa
        rw [Bool.and_eq_true, live_to_create_targets] at hpa
        exact beq_iff_eq.mp hpa.1
      have hplA : (targets l.identifier (live_to_create l) &&
          !(stored.any (fun s => s.identifier == l.identifier))) = true := by
        rw [Bool.and_eq_true, live_to_create_targets]
        exact ⟨beq_iff_eq.mpr rfl, (fresh_iff stored l).mpr hnot⟩
      have hA := countP_eq_one_of_nodup_map LiveStatus.identifier l.identifier live hl _
        himpA l hl0 hplA
      have hB : stored.countP (fun s => targets l.identifier (stored_to_delete s) &&
          !(live.any (fun x => x.identifier == s.identifier))) = 0 := by
        rw [List.countP_eq_zero]
        intro s hsmem hps
        rw [Bool.and_eq_true, stored_to_delete_targets] at hps
        have hsid : s.identifier = l.identifier := beq_iff_eq.mp hps.1
        exact hnot (hsid ▸ List.mem_map_of_mem SourceStatus.identifier hsmem)
      rw [hA, hB]
    · cases l with
      | post p0 =>
        show (create_operations live stored).countP
          (is_create_post_for (LiveStatus.post p0).identifier) = 1
        unfold create_operations
        rw [List.countP_append, countP_create_part, countP_delete_part]
        have himpA : ∀ a ∈ live,
            (is_create_post_for (LiveStatus.post p0).identifier (live_to_create a) &&
              !(stored.any (fun s => s.identifier == a.identifier))) = true →
            a.identifier = (LiveStatus.post p0).identifier := by
          intro a ha hpa
          rw [Bool.and_eq_true] at hpa
          cases a with
          | post q =>
            have hq : (q.identifier == p0.identifier) = true := hpa.1
            exact beq_iff_eq.mp hq
          | repost r =>
            have hq : (false : Bool) = true := hpa.1
            exact absurd hq (by decide)
        have hplA : (is_create_post_for (LiveStatus.post p0).identifier
            (live_to_create (LiveStatus.post p0)) &&
            !(stored.any (fun s => s.identifier == (LiveStatus.post p0).identifier))) = true := by
          rw [Bool.and_eq_true]
          exact ⟨beq_iff_eq.mpr rfl, (fresh_iff stored (LiveStatus.post p0)).mpr hnot⟩
        have hA := countP_eq_one_of_nodup_map LiveStatus.identifier
          (LiveStatus.post p0).identifier live hl _ himpA (LiveStatus.post p0) hl0 hplA
        have hB : stored.countP (fun s =>
            is_create_post_for (LiveStatus.post p0).identifier (stored_to_delete s) &&
            !(live.any (fun x => x.identifier == s.identifier))) = 0 := by
          rw [List.countP_eq_zero]
          intro s hsmem hps
          rw [Bool.and_eq_true] at hps
          cases s with
          | post q =>
            have hq : (false : Bool) = true := hps.1
            exact absurd hq (by decide)
          | repost r =>
            have hq : (false : Bool) = true := hps.1
            exact absurd hq (by decide)
        rw [hA, hB]
      | repost r0 =>
        show (create_operations live stored).countP
          (is_create_repost_for (LiveStatus.repost r0).identifier) = 1
        unfold create_operations
        rw [List.countP_append, countP_create_part, countP_delete_part]
        have himpA : ∀ a ∈ live,
            (is_create_repost_for (LiveStatus.repost r0).identifier (live_to_create a) &&
              !(stored.any (fun s => s.identifier == a.identifier))) = true →
            a.identifier = (LiveStatus.repost r0).identifier := by
          intro a ha hpa
          rw [Bool.and_eq_true] at hpa
          cases a with
          | post q =>
            have hq : (false : Bool) = true := hpa.1
            exact absurd hq (by decide)
          | repost r =>
            have hq : (r.src_identifier == r0.src_identifier) = true := hpa.1
            exact beq_iff_eq.mp hq
        have hplA : (is_create_repost_for (LiveStatus.repost r0).identifier
            (live_to_create (LiveStatus.repost r0)) &&
            !(stored.any (fun s => s.identifier == (LiveStatus.repost r0).identifier))) = true := by
          rw [Bool.and_eq_true]
          exact ⟨beq_iff_eq.mpr rfl, (fresh_iff stored (LiveStatus.repost r0)).mpr hnot⟩
        have hA := countP_eq_one_of_nodup_map LiveStatus.identifier
          (LiveStatus.repost r0).identifier live hl _ himpA (LiveStatus.repost r0) hl0 hplA
        have hB : stored.countP (fun s =>
            is_create_repost_for (LiveStatus.repost r0).identifier (stored_to_delete s) &&
            !(live.any (fun x => x.identifier == s.identifier))) = 0 := by
          rw [List.countP_eq_zero]
          intro s hsmem hps
          rw [Bool.and_eq_true] at hps
          cases s with
          | post q =>
            have hq : (false : Bool) = true := hps.1
            exact absurd hq (by decide)
          | repost r =>
            have hq : (false : Bool) = true := hps.1
            exact absurd hq (by decide)
        rw [hA, hB]
  · intro s hs0 hnot
    constructor
    · unfold create_operations
      rw [List.countP_append, countP_create_part, countP_delete_part]
      have hA : live.countP (fun x => targets s.identifier (live_to_create x) &&
          !(stored.any (fun y => y.identifier == x.identifier))) = 0 := by
        rw [List.countP_eq_zero]
        intro x hxmem hpx
        rw [Bool.and_eq_true, live_to_create_targets] at hpx
        have hxid : x.identifier = s.identifier := beq_iff_eq.mp hpx.1
        exact hnot (hxid ▸ List.mem_map_of_mem LiveStatus.identifier hxmem)
      have himpB : ∀ a ∈ stored,
          (targets s.identifier (stored_to_delete a) &&
            !(live.any (fun x => x.identifier == a.identifier))) = true →
          a.identifier = s.identifier := by
        intro a ha hpa
        rw [Bool.and_eq_true, stored_to_delete_targets] at hpa
        exact beq_iff_eq.mp hpa.1
      have hplB : (targets s.identifier (stored_to_delete s) &&
          !(live.any (fun x => x.identifier == s.identifier))) = true := by
        rw [Bool.and_eq_true, stored_to_delete_targets]
        exact ⟨beq_iff_eq.mpr rfl, (gone_iff live s).mpr hnot⟩
      have hB := countP_eq_one_of_nodup_map SourceStatus.identifier s.identifier stored hs _
        himpB s hs0 hplB
      rw [hA, hB]
    · cases s with
      | post p0 =>
        show (create_operations live stored).countP
          (is_delete_post_for (SourceStatus.post p0).identifier) = 1
        unfold create_operations
        rw [List.countP_append, countP_create_part, countP_delete_part]
        have hA : live.countP (fun x =>
            is_delete_post_for (SourceStatus.post p0).identifier (live_to_create x) &&
            !(stored.any (fun y => y.identifier == x.identifier))) = 0 := by
          rw [List.countP_eq_zero]
          intro x hxmem hpx
          rw [Bool.and_eq_true] at hpx
          cases x with
          | post q =>
            have hq : (false : Bool) = true := hpx.1
            exact absurd hq (by decide)
          | repost r =>
            have hq : (false : Bool) = true := hpx.1
            exact absurd hq (by decide)
        have himpB : ∀ a ∈ stored,
            (is_delete_post_for (SourceStatus.post p0).identifier (stored_to_delete a) &&
              !(live.any (fun x => x.identifier == a.identifier))) = true →
            a.identifier = (SourceStatus.post p0).identifier := by
          intro a ha hpa
          rw [Bool.and_eq_true] at hpa
          cases a with
          | post q =>
            have hq : (q.identifier == p0.identifier) = true := hpa.1
            exact beq_iff_eq.mp hq
          | repost r =>
            have hq : (false : Bool) = true := hpa.1
            exact absurd hq (by decide)
        have hplB : (is_delete_post_for (SourceStatus.post p0).identifier
            (stored_to_delete (SourceStatus.post p0)) &&
            !(live.any (fun x => x.identifier == (SourceStatus.post p0).identifier))) = true := by
          rw [Bool.and_eq_true]
          exact ⟨beq_iff_eq.mpr rfl, (gone_iff live (SourceStatus.post p0)).mpr hnot⟩
        have hB := countP_eq_one_of_nodup_map SourceStatus.identifier
          (SourceStatus.post p0).identifier stored hs _ himpB (SourceStatus.post p0) hs0 hplB
        rw [hA, hB]
      | repost r0 =>
        show (create_operations live stored).countP
          (is_delete_repost_for (SourceStatus.repost r0).identifier) = 1
        unfold create_operations
        rw [List.countP_append, countP_create_part, countP_delete_part]
        have hA : live.countP (fun x =>
            is_delete_repost_for (SourceStatus.repost r0).identifier (live_to_create x) &&
            !(stored.any (fun y => y.identifier == x.identifier))) = 0 := by
          rw [List.countP_eq_zero]
          intro x hxmem hpx
          rw [Bool.and_eq_true] at hpx
          cases x with
          | post q =>
            have hq : (false : Bool) = true := hpx.1
            exact absurd hq (by decide)
          | repost r =>
            have hq : (false : Bool) = true := hpx.1
            exact absurd hq (by decide)
        have himpB : ∀ a ∈ stored,
            (is_delete_repost_for (SourceStatus.repost r0).identifier (stored_to_delete a) &&
              !(live.any (fun x => x.identifier == a.identifier))) = true →
            a.identifier = (SourceStatus.repost r0).identifier := by
          intro a ha hpa
          rw [Bool.and_eq_true] at hpa
          cases a with
          | post q =>
            have hq : (false : Bool) = true := hpa.1
            exact absurd hq (by decide)
          | repost r =>
            have hq : (r.identifier == r0.identifier) = true := hpa.1
            exact beq_iff_eq.mp hq
        have hplB : (is_delete_repost_for (SourceStatus.repost r0).identifier
            (stored_to_delete (SourceStatus.repost r0)) &&
            !(live.any (fun x => x.identifier == (SourceStatus.repost r0).identifier))) = true := by
          rw [Bool.and_eq_true]
          exact ⟨beq_iff_eq.mpr rfl, (gone_iff live (SourceStatus.repost r0)).mpr hnot⟩
        have hB := countP_eq_one_of_nodup_map SourceStatus.identifier
          (SourceStatus.repost r0).identifier stored hs _ himpB (SourceStatus.repost r0) hs0 hplB
        rw [hA, hB]
  · intro id hidlive hidstored
    unfold create_operations
    rw [List.countP_append, countP_create_part, countP_delete_part]
    have hA : live.countP (fun x => targets id (live_to_create x) &&
        !(stored.any (fun y => y.identifier == x.identifier))) = 0 := by
      rw [List.countP_eq_zero]
      intro x hxmem hpx
      rw [Bool.and_eq_true, live_to_create_targets] at hpx
      have hxid : x.identifier = id := beq_iff_eq.mp hpx.1
      have : x.identifier ∈ stored.map SourceStatus.identifier := hxid ▸ hidstored
      exact absurd this ((fresh_iff stored x).mp hpx.2)
    have hB : stored.countP (fun s => targets id (stored_to_delete s) &&
        !(live.any (fun x => x.identifier == s.identifier))) = 0 := by
      rw [List.countP_eq_zero]
      intro s hsmem hps
      rw [Bool.and_eq_true, stored_to_delete_targets] at hps
      have hsid : s.identifier = id := beq_iff_eq.mp hps.1
      have : s.identifier ∈ live.map LiveStatus.identifier := hsid ▸ hidlive
      exact absurd this ((gone_iff live s).mp hps.2)
    rw [hA, hB]

/-- A live post with the given identifier and placeholder content. -/
def mk_live_post (id : String) : LivePost :=
  { identifier := id, uri := "u", content := "c", facets := [], reply_src_identifier := none,
    media := [], external := .none, created_at := "t" }

/-- A recorded post snapshot with the given identifier. -/
def mk_stored_post (id : String) : SourceStatus :=
  .post { identifier := id, uri := "u", content := "c", facets := [],
          reply_src_identifier := none, media := [], external := none, created_at := "t" }

/-- The live fetch of the spec example: [P3, P1]. -/
def reconLive : List LiveStatus := [.post (mk_live_post "P3"), .post (mk_live_post "P1")]

/-- The baseline of the spec example: [P1, P2]. -/
def reconStored : List SourceStatus := [mk_stored_post "P1", mk_stored_post "P2"]

/-- Witness for C2 on the spec example baseline [P1, P2], live [P3, P1]:
exactly one action targets P3. -/
theorem create_operations_diff_witness :
    (reconLive.map LiveStatus.identifier).Nodup ∧
    (reconStored.map SourceStatus.identifier).Nodup ∧
    (create_operations reconLive reconStored).countP (targets "P3") = 1 :=
  ⟨by decide, by decide,
   ((create_operations_diff reconLive reconStored (by decide) (by decide)).1
      (.post (mk_live_post "P3")) (by decide) (by decide)).1⟩

/-! ## C10, C1: the processor loop -/

/-- A client whose four capabilities always succeed. -/
def Client.alwaysOk (c : Client) : Prop :=
  (∀ a b r m e t, ∃ v, c.post a b r m e t = .ok v) ∧
  (∀ a t, ∃ v, c.repost a t = .ok v) ∧
  (∀ i, c.delete_post i = .ok ()) ∧
  (∀ i, c.delete_repost i = .ok ())

theorem modify_dst_operations (store : Store) (pair : AccountPair)
    (f : Destination → Destination) :
    (store.modify_dst pair f).operations = store.operations := rfl

theorem remove_dst_status_operations (store : Store) (p : DestinationStatus → Bool) :
    (store.remove_dst_status p).operations = store.operations := by
  unfold Store.remove_dst_status
  cases removeFirstInUsers p store.users <;> rfl

/-- The handlers never touch the queue, and with an all-success client they
never fail. -/
theorem apply_operation_ok (store : Store) (client : Client) (op : Operation)
    (h : client.alwaysOk) :
    ∃ st2, apply_operation store client op = .ok st2 ∧ st2.operations = store.operations := by
  cases op with
  | CreatePost o =>
    obtain ⟨v, hv⟩ := h.1 o.status.content o.status.facets
      (o.status.reply_src_identifier.bind (fun r => to_dst_identifier r store))
      o.status.media o.status.external o.status.created_at
    refine ⟨store.modify_dst o.account_pair (fun d =>
      { d with statuses :=
          DestinationStatus.post ⟨v, o.status.src_identifier⟩ :: d.statuses }), ?_, rfl⟩
    simp only [apply_operation, create_post, hv]
  | CreateRepost o =>
    obtain ⟨v, hv⟩ := h.2.1 o.status.target_identifier o.status.created_at
    refine ⟨store.modify_dst o.account_pair (fun d =>
      { d with statuses :=
          DestinationStatus.repost ⟨v, o.status.src_identifier⟩ :: d.statuses }), ?_, rfl⟩
    simp only [apply_operation, create_repost, hv]
  | UpdatePost o => exact ⟨store, rfl, rfl⟩
  | DeletePost o =>
    cases hto : to_dst_identifier o.status.src_identifier store with
    | none => exact ⟨store, by simp only [apply_operation, delete_post, hto], rfl⟩
    | some d =>
      refine ⟨store.remove_dst_status
          (fun st => st.src_identifier == o.status.src_identifier), ?_,
        remove_dst_status_operations store _⟩
      simp only [apply_operation, delete_post, hto, h.2.2.1 d]
  | DeleteRepost o =>
    cases hto : to_dst_identifier o.status.src_identifier store with
    | none => exact ⟨store, by simp only [apply_operation, delete_repost, hto], rfl⟩
    | some d =>
      refine ⟨store.remove_dst_status
          (fun st => st.src_identifier == o.status.src_identifier), ?_,
        remove_dst_status_operations store _⟩
      simp only [apply_operation, delete_repost, hto, h.2.2.2 d]

theorem listPop_concat (l : List α) (a : α) : listPop (l ++ [a]) = some (a, l) := by
  induction l with
  | nil => rfl
  | cons x xs ih => simp [listPop, ih]

/-- The drain lemma: with an always-succeeding client reachable for every
queued pair and no cancellation, one run applies exactly the reverse of the
queue, in order, and empties it. -/
theorem post_go_drain (env : Env) (client : Client) (hok : Client.alwaysOk client)
    (hc : ∀ k, env.create_client k = .ok client) :
    ∀ rq : List Operation, ∀ store : Store, ∀ i : Nat,
      store.operations = rq.reverse →
      (∀ op ∈ rq, op.account_pair.to_dst_key ∈ env.dsts) →
      ∃ stf, post_go env (fun _ => false) rq.length i store = (stf, rq, .ok ()) ∧
        stf.operations = [] := by
  intro rq
  induction rq with
  | nil =>
    intro store i hq _
    exact ⟨store, rfl, by simpa using hq⟩
  | cons a rq2 ih =>
    intro store i hq hmem
    have hdk : a.account_pair.to_dst_key ∈ env.dsts := hmem a (List.mem_cons_self a rq2)
    have hexists : ∃ k ∈ env.dsts, (k == a.account_pair.to_dst_key) = true :=
      ⟨_, hdk, beq_self_eq_true _⟩
    obtain ⟨k2, hfind⟩ := Option.isSome_iff_exists.mp (List.find?_isSome.mpr hexists)
    simp only [List.length_cons, post_go]
    rw [hq]
    simp only [List.reverse_cons, listPop_concat, Bool.false_eq_true, if_false]
    rw [hfind]
    simp only [hc]
    obtain ⟨st2, happly, hops2⟩ :=
      apply_operation_ok { store with operations := rq2.reverse } client a hok
    simp only [happly]
    obtain ⟨stf, hrec, hfin⟩ := ih st2 (i + 1) (by rw [hops2]) (fun op hop =>
      hmem op (List.mem_cons_of_mem a hop))
    simp only [hrec]
    exact ⟨stf, rfl, hfin⟩

/-- C10: the processor takes the next action with Vec::pop from the tail of
the queue: in a run where every action is reachable and every capability
succeeds, the actions are applied exactly in the reverse of the order in
which they were appended, and the queue is drained. -/
theorem processor_drains_lifo (env : Env) (client : Client) (store : Store)
    (hok : Client.alwaysOk client)
    (hc : ∀ k, env.create_client k = .ok client)
    (hd : ∀ op ∈ store.operations, op.account_pair.to_dst_key ∈ env.dsts) :
    (post env (fun _ => false) store).2.1 = store.operations.reverse ∧
    (post env (fun _ => false) store).1.operations = [] ∧
    (post env (fun _ => false) store).2.2 = .ok () := by
  obtain ⟨stf, heq, hfin⟩ := post_go_drain env client hok hc store.operations.reverse store 0
    (by rw [List.reverse_reverse])
    (by intro op hop; exact hd op (by rwa [List.mem_reverse] at hop))
  rw [List.length_reverse] at heq
  unfold post
  rw [heq]
  exact ⟨rfl, hfin, rfl⟩

/-- A concrete two-action queue for the LIFO witness. -/
def lifoStatus1 : CreatePostOperationStatus :=
  { src_identifier := "s1", content := "one", facets := [],
    reply_src_identifier := none, media := [], external := none, created_at := "t" }

def lifoStatus2 : CreatePostOperationStatus :=
  { src_identifier := "s2", content := "two", facets := [],
    reply_src_identifier := none, media := [], external := none, created_at := "t" }

def lifoOp1 : Operation := .CreatePost { account_pair := examplePair, status := lifoStatus1 }

def lifoOp2 : Operation := .CreatePost { account_pair := examplePair, status := lifoStatus2 }

def lifoStore : Store := { users := [], operations := [lifoOp1, lifoOp2] }

def lifoEnv : Env :=
  { dsts := [examplePair.to_dst_key], create_client := fun _ => .ok okPostClient }

/-- Every queued pair of lifoStore addresses the one configured
destination. -/
theorem lifo_keys_covered :
    ∀ op ∈ lifoStore.operations, op.account_pair.to_dst_key ∈ lifoEnv.dsts := by
  intro op hop
  rcases List.mem_cons.mp hop with h | h
  · subst h
    exact List.mem_singleton.mpr rfl
  · rcases List.mem_cons.mp h with h2 | h2
    · subst h2
      exact List.mem_singleton.mpr rfl
    · simp at h2

/-- Witness for C10: the queue [op1, op2] is applied as op2 then op1. -/
theorem processor_drains_lifo_witness :
    Client.alwaysOk okPostClient ∧
    (∀ k, lifoEnv.create_client k = .ok okPostClient) ∧
    (∀ op ∈ lifoStore.operations, op.account_pair.to_dst_key ∈ lifoEnv.dsts) ∧
    (post lifoEnv (fun _ => false) lifoStore).2.1 = [lifoOp2, lifoOp1] :=
  ⟨⟨fun _ _ _ _ _ _ => ⟨"x9", rfl⟩, fun _ _ => ⟨"x9", rfl⟩, fun _ => rfl, fun _ => rfl⟩,
   fun _ => rfl,
   lifo_keys_covered,
   (processor_drains_lifo lifoEnv okPostClient lifoStore
     ⟨fun _ _ _ _ _ _ => ⟨"x9", rfl⟩, fun _ _ => ⟨"x9", rfl⟩, fun _ => rfl, fun _ => rfl⟩
     (fun _ => rfl) lifo_keys_covered).1⟩

/-- The payload of the single queued action of the C1 failing run. -/
def failStatus : CreatePostOperationStatus :=
  { src_identifier := "s1", content := "hello", facets := [],
    reply_src_identifier := none, media := [], external := none, created_at := "t" }

/-- The single queued action of the C1 failing run. -/
def failOp : Operation := .CreatePost { account_pair := examplePair, status := failStatus }

/-- A store whose queue holds exactly failOp. -/
def failStore : Store := { users := [], operations := [failOp] }

/-- An environment whose client creation succeeds and whose create
capability fails. -/
def failEnv : Env :=
  { dsts := [examplePair.to_dst_key], create_client := fun _ => .ok deleteOnlyClient }

/-- C1: the processor pops the action off the queue before attempting it
and aborts on capability failure without restoring it: on the store whose
queue holds exactly failOp, with a create capability that fails, the run
returns the failure, yet the failed action is no longer in the queue and no
destination-side record was written — the queue does not retain the failed
action as the durability contract demands. -/
theorem processor_pops_before_attempt :
    (post failEnv (fun _ => false) failStore).2.2 = .error "post failed" ∧
    (post failEnv (fun _ => false) failStore).1.operations = [] ∧
    (post failEnv (fun _ => false) failStore).1.users = [] ∧
    (post failEnv (fun _ => false) failStore).2.1 = [] :=
  ⟨rfl, rfl, rfl, rfl⟩
